import Mathlib

/-!
Shallow embedding of `src/dlfs.py` (OnealDev/Python-Inventory-checklist),
the DLFS lost-and-found record store: three collections (users, items,
claims) held in memory by `DLFSController`, persisted as whole JSON files
by `load_data` / `save_data`, with linear-scan operations
`login`, `report_item`, `search_items`, `claim_item`, `approve_claim`.

Modelling choices:
  * Records are Lean structures with exactly the fields the Python code
    writes (`User.__init__`, `ReportedItem.__init__`, `Claim.__init__`),
    in the same field order.
  * Python's `random.randint(1000, 9999)` draw in `ReportedItem.__init__`
    and `Claim.__init__` is an external random source; every operation
    that draws an identifier takes the drawn number as an explicit extra
    argument `r`.
  * The Python `json` module is external library code.  A persisted file
    is modelled by its parse outcome: either its text parses as a JSON
    array of records (`FileData.good`, which is what `json.dump` of a
    record list always produces, and what `json.load` decodes back
    field-for-field), or its text fails to parse (`FileData.corrupt`,
    the case caught by the `except json.JSONDecodeError` branch).
  * `DLFS` bundles the controller's three in-memory lists with the three
    files of the data directory, so that persistence behaviour
    (`save_all`) is part of the state transition of each operation.
-/

set_option autoImplicit false

/-- One record of `users.json`: the fields assigned by `User.__init__`
(`user_id`, `name`, `email`, `password`, `role`), with the numeric id as
`Nat` and the rest as strings, matching the bootstrap admin record. -/
structure UserRec where
  id : Nat
  name : String
  email : String
  password : String
  role : String
deriving DecidableEq

/-- One record of `items.json`: the fields assigned by
`ReportedItem.__init__` in assignment order. -/
structure ItemRec where
  item_id : String
  name : String
  description : String
  location : String
  item_type : String
  status : String
deriving DecidableEq

/-- One record of `claims.json`: the fields assigned by `Claim.__init__`
in assignment order. -/
structure ClaimRec where
  claim_id : String
  user_id : Nat
  item_id : String
  status : String
deriving DecidableEq

/-- A persisted collection file, described by its parse outcome:
`good rs` is a file whose text parses as the JSON array serializing the
record list `rs` (the only thing `save_data` ever writes);
`corrupt` is a file whose text fails to parse as JSON
(`json.JSONDecodeError` on load). -/
inductive FileData (α : Type) where
  | good : List α → FileData α
  | corrupt : FileData α
deriving DecidableEq

/-- Embeds `load_data` (src/dlfs.py lines 33-40): `json.load` the file,
returning the decoded record list; on `json.JSONDecodeError` return the
empty list. -/
def load_data {α : Type} : FileData α → List α
  | .good rs => rs
  | .corrupt => []

/-- Embeds `save_data` (src/dlfs.py lines 43-47): `json.dump` the record
list, overwriting the file with text that parses back to that list. -/
def save_data {α : Type} (records : List α) : FileData α :=
  .good records

/-- The whole store state: the three in-memory lists owned by
`DLFSController` together with the three files of the data directory. -/
structure DLFS where
  users : List UserRec
  items : List ItemRec
  claims : List ClaimRec
  users_file : FileData UserRec
  items_file : FileData ItemRec
  claims_file : FileData ClaimRec
deriving DecidableEq

/-- Embeds `DLFSController.save_all` (lines 96-100): rewrite all three
files from the in-memory lists. -/
def save_all (s : DLFS) : DLFS :=
  { s with
    users_file := save_data s.users
    items_file := save_data s.items
    claims_file := save_data s.claims }

/-- Embeds `DLFSController.login` (lines 102-107): scan the user list in
order, returning the first record whose `email` and `password` both equal
the arguments, else `none`.  Stated over the user list (the only state the
method reads). -/
def login : List UserRec → String → String → Option UserRec
  | [], _, _ => none
  | u :: rest, email, pw =>
      if u.email == email && u.password == pw then some u
      else login rest email pw

/-- The item identifier string built in `ReportedItem.__init__` (line 71)
from the drawn number `r`. -/
def mkItemId (r : Nat) : String :=
  "ITEM-" ++ toString r

/-- The claim identifier string built in `Claim.__init__` (line 82) from
the drawn number `r`. -/
def mkClaimId (r : Nat) : String :=
  "CLM-" ++ toString r

/-- Embeds `DLFSController.report_item` (lines 109-114) together with
`ReportedItem.__init__` (lines 67-76): build the new item record with
status "reported", append it to the item list, `save_all`, and return the
generated item id.  `r` is the number drawn by `random.randint`; the
`user_id` parameter is accepted exactly as in the Python signature. -/
def report_item (s : DLFS) (name description location item_type : String)
    (user_id : Nat) (r : Nat) : String × DLFS :=
  let item : ItemRec :=
    { item_id := mkItemId r
      name := name
      description := description
      location := location
      item_type := item_type
      status := "reported" }
  let s1 : DLFS := { s with items := s.items ++ [item] }
  (item.item_id, save_all s1)

/-- Helper for Python's `in` on strings: `pfx n h` tests whether the
character list `n` is an initial segment of `h`. -/
def pfx : List Char → List Char → Bool
  | [], _ => true
  | _ :: _, [] => false
  | a :: n, b :: h => a == b && pfx n h

/-- Helper for Python's `in` on strings: `hasSub n h` tests whether the
character list `n` occurs contiguously inside `h`. -/
def hasSub (n : List Char) : List Char → Bool
  | [] => pfx n []
  | c :: t => pfx n (c :: t) || hasSub n t

/-- Embeds the Python expression `needle in hay` on strings: contiguous
substring containment (the empty string is contained in every string). -/
def strIn (needle hay : String) : Bool :=
  hasSub needle.data hay.data

/-- Embeds `DLFSController.search_items` (lines 116-118): keep, in order,
the items whose lower-cased name contains the lower-cased keyword. -/
def search_items (s : DLFS) (keyword : String) : List ItemRec :=
  s.items.filter (fun item => strIn keyword.toLower item.name.toLower)

/-- Embeds `DLFSController.claim_item` (lines 120-125) together with
`Claim.__init__` (lines 78-85): build the new claim record with status
"pending", append it to the claim list, `save_all`, and return the
generated claim id.  `r` is the number drawn by `random.randint`. -/
def claim_item (s : DLFS) (user_id : Nat) (item_id : String) (r : Nat) :
    String × DLFS :=
  let claim : ClaimRec :=
    { claim_id := mkClaimId r
      user_id := user_id
      item_id := item_id
      status := "pending" }
  let s1 : DLFS := { s with claims := s.claims ++ [claim] }
  (claim.claim_id, save_all s1)

/-- The claim-list scan of `approve_claim` (lines 129-131): walk the claim
list looking for the first record whose `claim_id` equals the argument;
on a hit, return the list with that one record's status set to "approved"
together with that record's `item_id` (read after the status write, which
leaves `item_id` untouched); `none` if the loop falls through. -/
def approveScan (cid : String) : List ClaimRec → Option (List ClaimRec × String)
  | [] => none
  | c :: rest =>
      if c.claim_id == cid then
        some ({ c with status := "approved" } :: rest, c.item_id)
      else
        match approveScan cid rest with
        | none => none
        | some (rest2, iid) => some (c :: rest2, iid)

/-- The item-list update inside `approve_claim` (lines 133-135): the inner
`for` loop has no `break`, so every item whose `item_id` equals the
matched claim's `item_id` gets status "claimed". -/
def mark_items_claimed (items : List ItemRec) (iid : String) : List ItemRec :=
  items.map (fun it => if it.item_id == iid then { it with status := "claimed" } else it)

/-- Embeds `DLFSController.approve_claim` (lines 127-138): on the first
claim matching `cid`, set its status to "approved", set every item sharing
its `item_id` to "claimed", `save_all`, and return `true`; if no claim
matches, return `false` without touching anything. -/
def approve_claim (s : DLFS) (cid : String) : Bool × DLFS :=
  match approveScan cid s.claims with
  | none => (false, s)
  | some (claims2, iid) =>
      (true, save_all { s with claims := claims2, items := mark_items_claimed s.items iid })

/-- Spec-side description of the claim-list effect of an approval: the
first record whose `claim_id` equals `cid` has its status replaced by
"approved"; every other record, including later records with the same id,
is kept as is. -/
def markApproved (cid : String) : List ClaimRec → List ClaimRec
  | [] => []
  | c :: rest =>
      if c.claim_id == cid then { c with status := "approved" } :: rest
      else c :: markApproved cid rest

/-- The persisted content of each of the three files equals the
serialization of the corresponding in-memory list. -/
def persisted (s : DLFS) : Prop :=
  s.users_file = save_data s.users ∧
  s.items_file = save_data s.items ∧
  s.claims_file = save_data s.claims

/-- Concrete sample data: the bootstrap administrator record written to a
fresh `users.json`. -/
def sampleAdmin : UserRec :=
  { id := 1, name := "Admin", email := "admin@dlfs.com",
    password := "admin123", role := "admin" }

/-- Concrete sample item. -/
def sampleItemA : ItemRec :=
  { item_id := "ITEM-7777", name := "Black Wallet", description := "leather",
    location := "library", item_type := "lost", status := "reported" }

/-- Concrete sample item sharing `sampleItemA`'s identifier (the random
4-digit id space has no collision check). -/
def sampleItemB : ItemRec :=
  { item_id := "ITEM-7777", name := "Blue Bag", description := "canvas",
    location := "gym", item_type := "found", status := "reported" }

/-- Concrete sample item with a distinct identifier. -/
def sampleItemC : ItemRec :=
  { item_id := "ITEM-9999", name := "Umbrella", description := "red",
    location := "hall", item_type := "lost", status := "reported" }

/-- Concrete sample claim on `sampleItemA`'s identifier. -/
def sampleClaim1 : ClaimRec :=
  { claim_id := "CLM-1234", user_id := 1, item_id := "ITEM-7777",
    status := "pending" }

/-- Concrete sample claim sharing `sampleClaim1`'s identifier but
referencing a different item. -/
def sampleClaim2 : ClaimRec :=
  { claim_id := "CLM-1234", user_id := 2, item_id := "ITEM-9999",
    status := "pending" }

/-- Concrete sample store state with colliding item and claim ids. -/
def sampleState : DLFS :=
  { users := [sampleAdmin]
    items := [sampleItemA, sampleItemB, sampleItemC]
    claims := [sampleClaim1, sampleClaim2]
    users_file := save_data [sampleAdmin]
    items_file := save_data [sampleItemA, sampleItemB, sampleItemC]
    claims_file := save_data [sampleClaim1, sampleClaim2] }

/-! ### Helper lemmas -/

theorem pfx_iff (n : List Char) : ∀ h : List Char, pfx n h = true ↔ ∃ r, h = n ++ r := by
  induction n with
  | nil => intro h; simp [pfx]
  | cons a n ih =>
    intro h
    cases h with
    | nil =>
      simp [pfx]
    | cons b h =>
      simp only [pfx, Bool.and_eq_true, beq_iff_eq, ih, List.cons_append, List.cons.injEq]
      constructor
      · rintro ⟨hab, r, hr⟩
        exact ⟨r, hab.symm, hr⟩
      · rintro ⟨r, hab, hr⟩
        exact ⟨hab.symm, r, hr⟩

theorem hasSub_iff (n : List Char) : ∀ h : List Char, hasSub n h = true ↔ ∃ l r, h = l ++ n ++ r := by
  intro h
  induction h with
  | nil =>
    simp only [hasSub, pfx_iff]
    constructor
    · rintro ⟨r, hr⟩
      exact ⟨[], r, by simpa using hr⟩
    · rintro ⟨l, r, hr⟩
      rcases List.append_eq_nil.mp (List.append_eq_nil.mp hr.symm).1 with ⟨hl, hn⟩
      exact ⟨[], by simp [hn, (List.append_eq_nil.mp hr.symm).2.symm, hr]⟩
  | cons c t ih =>
    simp only [hasSub, Bool.or_eq_true, pfx_iff, ih]
    constructor
    · rintro (⟨r, hr⟩ | ⟨l, r, hr⟩)
      · exact ⟨[], r, by simpa using hr⟩
      · exact ⟨c :: l, r, by simp [hr]⟩
    · rintro ⟨l, r, hr⟩
      cases l with
      | nil =>
        left
        exact ⟨r, by simpa using hr⟩
      | cons x l =>
        right
        rcases List.cons.injEq .. ▸ hr with ⟨-, ht⟩
        exact ⟨l, r, by simpa using ht⟩

theorem hasSub_nil_left (h : List Char) : hasSub [] h = true := by
  cases h <;> simp [hasSub, pfx]

theorem approveScan_eq (cid : String) (cs : List ClaimRec) :
    approveScan cid cs =
      (cs.find? (fun x => x.claim_id == cid)).map
        (fun c => (markApproved cid cs, c.item_id)) := by
  induction cs with
  | nil => simp [approveScan]
  | cons c rest ih =>
    cases hb : (c.claim_id == cid) with
    | true =>
      simp [approveScan, markApproved, List.find?_cons_of_pos, hb]
    | false =>
      rw [List.find?_cons_of_neg _ (by simp [hb])]
      simp only [approveScan, hb, Bool.false_eq_true, if_false, ih, markApproved]
      cases rest.find? (fun x => x.claim_id == cid) <;> simp

theorem persisted_save_all (s : DLFS) : persisted (save_all s) :=
  ⟨rfl, rfl, rfl⟩

theorem markApproved_append (cid : String) (l1 : List ClaimRec) (c : ClaimRec)
    (l2 : List ClaimRec) (hc : c.claim_id = cid)
    (hl1 : ∀ x ∈ l1, x.claim_id ≠ cid) :
    markApproved cid (l1 ++ c :: l2) = l1 ++ { c with status := "approved" } :: l2 := by
  induction l1 with
  | nil => simp [markApproved, hc]
  | cons x l ih =>
    have hx : (x.claim_id == cid) = false := by
      simpa using hl1 x (List.mem_cons_self x l)
    simp only [List.cons_append, markApproved, hx, Bool.false_eq_true, if_false,
      List.cons.injEq, true_and]
    exact ih (fun y hy => hl1 y (List.mem_cons_of_mem _ hy))

/-! ### Claim theorems -/

/-- C2: `login` returns the first user record whose `email` and `password`
fields both equal the given arguments (no earlier record matches), and
returns `none` exactly when no record in the collection matches both
fields. -/
theorem login_spec (users : List UserRec) (email pw : String) :
    (∀ u : UserRec, login users email pw = some u →
        ∃ l1 l2, users = l1 ++ u :: l2 ∧ u.email = email ∧ u.password = pw ∧
          ∀ v ∈ l1, ¬(v.email = email ∧ v.password = pw)) ∧
    (login users email pw = none ↔
        ∀ u ∈ users, ¬(u.email = email ∧ u.password = pw)) := by
  induction users with
  | nil => simp [login]
  | cons w rest ih =>
    cases hb : (w.email == email && w.password == pw) with
    | true =>
      have hw : w.email = email ∧ w.password = pw := by
        simpa [Bool.and_eq_true, beq_iff_eq] using hb
      have hl : login (w :: rest) email pw = some w := by
        simp [login, hb]
      refine ⟨?_, ?_⟩
      · intro u hu
        rw [hl] at hu
        injection hu with h
        subst h
        exact ⟨[], rest, rfl, hw.1, hw.2, by simp⟩
      · rw [hl]
        constructor
        · intro h
          exact Option.noConfusion h
        · intro hall
          exact absurd hw (hall w (List.mem_cons_self w rest))
    | false =>
      have hw : ¬(w.email = email ∧ w.password = pw) := by
        intro hcon
        rw [hcon.1, hcon.2] at hb
        simp at hb
      have hl : login (w :: rest) email pw = login rest email pw := by
        simp [login, hb]
      refine ⟨?_, ?_⟩
      · intro u hu
        rw [hl] at hu
        obtain ⟨l1, l2, h1, h2, h3, h4⟩ := ih.1 u hu
        refine ⟨w :: l1, l2, by simp [h1], h2, h3, ?_⟩
        intro v hv
        rcases List.mem_cons.mp hv with rfl | hv2
        · exact hw
        · exact h4 v hv2
      · rw [hl, ih.2]
        constructor
        · intro hall u hu
          rcases List.mem_cons.mp hu with rfl | hu2
          · exact hw
          · exact hall u hu2
        · intro hall u hu
          exact hall u (List.mem_cons_of_mem _ hu)

/-- Witness for C2: on the bootstrap user collection, the admin
credentials log in as the admin record (with no earlier match), and a
wrong password yields `none`. -/
theorem login_spec_witness :
    (∃ l1 l2, sampleState.users = l1 ++ sampleAdmin :: l2 ∧
        sampleAdmin.email = "admin@dlfs.com" ∧ sampleAdmin.password = "admin123" ∧
        ∀ v ∈ l1, ¬(v.email = "admin@dlfs.com" ∧ v.password = "admin123")) ∧
    login sampleState.users "admin@dlfs.com" "wrong" = none :=
  ⟨(login_spec sampleState.users "admin@dlfs.com" "admin123").1 sampleAdmin (by decide),
   (login_spec sampleState.users "admin@dlfs.com" "wrong").2.mpr (by decide)⟩

/-- C3: `search_items k` returns exactly the subsequence of the item list
consisting of the items whose lower-cased name contains the lower-cased
keyword as a contiguous substring, and `search_items ""` returns every
item. -/
theorem search_items_spec (s : DLFS) (k : String) :
    (∀ it : ItemRec, it ∈ search_items s k ↔
        it ∈ s.items ∧
          ∃ l r, it.name.toLower.data = l ++ k.toLower.data ++ r) ∧
    List.Sublist (search_items s k) s.items ∧
    search_items s "" = s.items := by
  refine ⟨?_, List.filter_sublist s.items, ?_⟩
  · intro it
    rw [search_items, List.mem_filter, strIn, hasSub_iff]
  · rw [search_items]
    apply List.filter_eq_self.mpr
    intro a _
    have h0 : ("" : String).toLower.data = ([] : List Char) := by
      simp [String.toLower, String.map_eq]
    rw [strIn, h0]
    exact hasSub_nil_left _

/-- C4: `report_item` appends exactly one record to the item collection;
the new record has status "reported" and carries the given name,
description, location and item_type verbatim, and the returned identifier
equals the new record's `item_id`. -/
theorem report_item_spec (s : DLFS)
    (name description location item_type : String) (uid r : Nat) :
    ((report_item s name description location item_type uid r).2.items.length =
        s.items.length + 1) ∧
    ∃ newIt : ItemRec,
      (report_item s name description location item_type uid r).2.items =
          s.items ++ [newIt] ∧
      newIt.status = "reported" ∧ newIt.name = name ∧
      newIt.description = description ∧ newIt.location = location ∧
      newIt.item_type = item_type ∧
      (report_item s name description location item_type uid r).1 = newIt.item_id := by
  exact ⟨by simp [report_item, save_all],
    ⟨{ item_id := mkItemId r, name := name, description := description,
       location := location, item_type := item_type, status := "reported" },
     rfl, rfl, rfl, rfl, rfl, rfl, rfl⟩⟩

/-- C5: `claim_item` appends exactly one record to the claim collection,
with status "pending", the given `user_id` and `item_id` (no existence
check on either), and returns that record's `claim_id`. -/
theorem claim_item_spec (s : DLFS) (uid : Nat) (iid : String) (r : Nat) :
    ((claim_item s uid iid r).2.claims.length = s.claims.length + 1) ∧
    ∃ newCl : ClaimRec,
      (claim_item s uid iid r).2.claims = s.claims ++ [newCl] ∧
      newCl.status = "pending" ∧ newCl.user_id = uid ∧ newCl.item_id = iid ∧
      (claim_item s uid iid r).1 = newCl.claim_id := by
  exact ⟨by simp [claim_item, save_all],
    ⟨{ claim_id := mkClaimId r, user_id := uid, item_id := iid,
       status := "pending" },
     rfl, rfl, rfl, rfl, rfl⟩⟩

/-- C7: saving any record list with the Storage Adapter and loading it
back yields the same list, including the empty list. -/
theorem storage_roundtrip {α : Type} (records : List α) :
    load_data (save_data records) = records :=
  rfl

/-- C8: loading a file whose content fails to parse as JSON yields the
empty list; `load_data` is a total function into record lists, so the
parse failure is not surfaced to the caller in any form. -/
theorem load_data_corrupt {α : Type} :
    load_data (FileData.corrupt : FileData α) = [] :=
  rfl

/-- C9: the `user_id` argument of `report_item` has no effect: with the
random draw fixed, two calls differing only in the reporting user produce
the same return value and the same resulting state (the created item
record has no field recording the reporter). -/
theorem report_item_ignores_reporter (s : DLFS)
    (name description location item_type : String) (u1 u2 r : Nat) :
    report_item s name description location item_type u1 r =
      report_item s name description location item_type u2 r :=
  rfl

/-- C1: when some claim in the collection has the given id, `approve_claim`
returns `true`, replaces the status of the (first) matching claim by
"approved", and sets the status of every item whose `item_id` equals that
claim's `item_id` to "claimed"; when no claim matches, it returns `false`
and leaves the entire state, collections and files alike, unchanged. -/
theorem approve_claim_spec (s : DLFS) (cid : String) :
    (∀ c : ClaimRec, s.claims.find? (fun x => x.claim_id == cid) = some c →
        (approve_claim s cid).1 = true ∧
        (approve_claim s cid).2.claims = markApproved cid s.claims ∧
        (approve_claim s cid).2.items = mark_items_claimed s.items c.item_id) ∧
    (s.claims.find? (fun x => x.claim_id == cid) = none →
        approve_claim s cid = (false, s)) := by
  constructor
  · intro c hc
    simp [approve_claim, approveScan_eq, hc, save_all]
  · intro hc
    simp [approve_claim, approveScan_eq, hc]

/-- Witness for C1: approving "CLM-1234" on the sample state succeeds and
performs the described updates; approving the absent "CLM-0000" returns
`false` and changes nothing. -/
theorem approve_claim_spec_witness :
    ((approve_claim sampleState "CLM-1234").1 = true ∧
     (approve_claim sampleState "CLM-1234").2.claims =
        markApproved "CLM-1234" sampleState.claims ∧
     (approve_claim sampleState "CLM-1234").2.items =
        mark_items_claimed sampleState.items sampleClaim1.item_id) ∧
    approve_claim sampleState "CLM-0000" = (false, sampleState) :=
  ⟨(approve_claim_spec sampleState "CLM-1234").1 sampleClaim1 (by decide),
   (approve_claim_spec sampleState "CLM-0000").2 (by decide)⟩

/-- C6: each mutating operation (`report_item`, `claim_item`, and
`approve_claim` when it finds the claim) leaves the persisted content of
all three files equal to the corresponding in-memory collection, the
untouched collections included. -/
theorem mutators_persist (s : DLFS)
    (name description location item_type : String) (uid r uid2 r2 : Nat)
    (iid cid : String) :
    persisted (report_item s name description location item_type uid r).2 ∧
    persisted (claim_item s uid2 iid r2).2 ∧
    ((∃ c ∈ s.claims, c.claim_id = cid) → persisted (approve_claim s cid).2) := by
  refine ⟨persisted_save_all _, persisted_save_all _, ?_⟩
  rintro ⟨c, hc, hcid⟩
  have hsome : (s.claims.find? (fun x => x.claim_id == cid)).isSome := by
    rw [List.find?_isSome]
    exact ⟨c, hc, by simp [hcid]⟩
  obtain ⟨c2, hc2⟩ := Option.isSome_iff_exists.mp hsome
  have he : approve_claim s cid =
      (true, save_all { s with claims := markApproved cid s.claims,
                               items := mark_items_claimed s.items c2.item_id }) := by
    simp [approve_claim, approveScan_eq, hc2]
  rw [he]
  exact persisted_save_all _

/-- Witness for C6: each of the three mutators, run on the sample state,
leaves all three files equal to the in-memory collections. -/
theorem mutators_persist_witness :
    persisted (report_item sampleState "Wallet" "black" "library" "lost" 1 4321).2 ∧
    persisted (claim_item sampleState 1 "ITEM-7777" 5678).2 ∧
    persisted (approve_claim sampleState "CLM-1234").2 :=
  ⟨(mutators_persist sampleState "Wallet" "black" "library" "lost" 1 4321 1 5678
      "ITEM-7777" "CLM-1234").1,
   (mutators_persist sampleState "Wallet" "black" "library" "lost" 1 4321 1 5678
      "ITEM-7777" "CLM-1234").2.1,
   (mutators_persist sampleState "Wallet" "black" "library" "lost" 1 4321 1 5678
      "ITEM-7777" "CLM-1234").2.2 ⟨sampleClaim1, by decide, by decide⟩⟩

/-- C10: with colliding identifiers, `approve_claim` is asymmetric: if the
claim list splits as `l1 ++ c :: l2` with `c` the first claim matching the
id, only `c`'s status becomes "approved" (all claims in `l2`, including
later ones with the same id, are kept verbatim), while on the item side
every item whose `item_id` equals `c.item_id` is set to "claimed", not
only the first. -/
theorem approve_claim_collision (s : DLFS) (cid : String)
    (l1 : List ClaimRec) (c : ClaimRec) (l2 : List ClaimRec)
    (hs : s.claims = l1 ++ c :: l2) (hc : c.claim_id = cid)
    (hl1 : ∀ x ∈ l1, x.claim_id ≠ cid) :
    (approve_claim s cid).1 = true ∧
    (approve_claim s cid).2.claims = l1 ++ { c with status := "approved" } :: l2 ∧
    (approve_claim s cid).2.items =
      s.items.map (fun it =>
        if it.item_id == c.item_id then { it with status := "claimed" } else it) := by
  have hfind : s.claims.find? (fun x => x.claim_id == cid) = some c := by
    rw [hs, List.find?_append]
    have h1 : l1.find? (fun x => x.claim_id == cid) = none :=
      List.find?_eq_none.mpr (fun x hx => by simp [hl1 x hx])
    rw [h1, List.find?_cons_of_pos _ (by simp [hc])]
    rfl
  have hm : markApproved cid s.claims = l1 ++ { c with status := "approved" } :: l2 := by
    rw [hs]
    exact markApproved_append cid l1 c l2 hc hl1
  have he : approve_claim s cid =
      (true, save_all { s with claims := markApproved cid s.claims,
                               items := mark_items_claimed s.items c.item_id }) := by
    simp [approve_claim, approveScan_eq, hfind]
  rw [he]
  exact ⟨rfl, hm, rfl⟩

/-- Witness for C10: the sample state has two claims with id "CLM-1234"
and two items with id "ITEM-7777"; approval updates only the first claim
while every "ITEM-7777" item is marked "claimed". -/
theorem approve_claim_collision_witness :
    (approve_claim sampleState "CLM-1234").1 = true ∧
    (approve_claim sampleState "CLM-1234").2.claims =
      [] ++ { sampleClaim1 with status := "approved" } :: [sampleClaim2] ∧
    (approve_claim sampleState "CLM-1234").2.items =
      sampleState.items.map (fun it =>
        if it.item_id == sampleClaim1.item_id then { it with status := "claimed" }
        else it) :=
  approve_claim_collision sampleState "CLM-1234" [] sampleClaim1 [sampleClaim2]
    rfl rfl (by simp)
